import Mathlib

/-!
Verification of the bio-poll online-voting application.

The development shallowly embeds the data model (the SQL schema of
elections, candidates, votes, profiles and user roles, with its unique
constraints and row-level security policies) and the client-side logic of
the voting pages (loading an election, casting a vote, the voter
dashboard, and the results computation).  Machine-level concerns are
abstracted: ids are Nat, timestamps are Nat, percentages are exact
rationals, and purely decorative columns (photo urls, manifestos,
descriptions, audit timestamps) that no modeled logic reads are omitted.
-/

namespace BioPoll

/-- Election status enum: CHECK (status IN (scheduled, active, paused, ended)). -/
inductive Status where
  | scheduled
  | active
  | paused
  | ended
  deriving DecidableEq

/-- A row of the elections table. -/
structure Election where
  id : Nat
  title : String
  start_time : Nat
  end_time : Nat
  status : Status
  results_published : Bool
  deriving DecidableEq

/-- A row of the candidates table. -/
structure Candidate where
  id : Nat
  election_id : Nat
  name : String
  party : String
  deriving DecidableEq

/-- A row of the votes table. -/
structure Vote where
  id : Nat
  election_id : Nat
  candidate_id : Nat
  voter_id : Nat
  vote_receipt : String
  face_verified : Bool
  deriving DecidableEq

/-- A row of the profiles table. -/
structure Profile where
  id : Nat
  face_registered : Bool
  deriving DecidableEq

/-- Role enum of the user_roles table. -/
inductive Role where
  | user
  | admin
  deriving DecidableEq

/-- A row of the user_roles table. -/
structure UserRole where
  user_id : Nat
  role : Role
  deriving DecidableEq

/-- The datastore: the five tables the voting logic touches. -/
structure DB where
  elections : List Election
  candidates : List Candidate
  votes : List Vote
  profiles : List Profile
  user_roles : List UserRole
  deriving DecidableEq

/-- The has_role security definer function: does a user hold a role. -/
def has_role (db : DB) (uid : Nat) (r : Role) : Bool :=
  db.user_roles.any (fun ur => ur.user_id == uid && ur.role == r)

/-- Row-level security on elections: anyone can view active and ended
elections; admins can view all. -/
def electionVisible (db : DB) (viewer : Nat) (e : Election) : Bool :=
  (e.status == Status.active || e.status == Status.ended) || has_role db viewer Role.admin

/-- The elections a given viewer can select. -/
def visibleElections (db : DB) (viewer : Nat) : List Election :=
  db.elections.filter (electionVisible db viewer)

/-- Row-level security on votes: users can view their own vote; admins can
view all votes. -/
def voteVisible (db : DB) (viewer : Nat) (v : Vote) : Bool :=
  v.voter_id == viewer || has_role db viewer Role.admin

/-- The vote rows a given viewer can select. -/
def visibleVotes (db : DB) (viewer : Nat) : List Vote :=
  db.votes.filter (voteVisible db viewer)

/-- elections.find matching the select by primary key. -/
def findElection (db : DB) (eid : Nat) : Option Election :=
  db.elections.find? (fun e => e.id == eid)

/-- All vote rows of one election (the votes query of the results page,
as an admin or the datastore itself would see it). -/
def votesFor (db : DB) (eid : Nat) : List Vote :=
  db.votes.filter (fun v => v.election_id == eid)

/-- All candidate rows of one election (candidates are visible to all). -/
def candsFor (db : DB) (eid : Nat) : List Candidate :=
  db.candidates.filter (fun c => c.election_id == eid)

/-- Insert into the votes table.  The datastore applies, in order, the
row-level security insert policy (auth.uid() = voter_id), the unique
constraint on (election_id, voter_id), and the unique constraint on
vote_receipt; a violation fails the insert and leaves the table unchanged. -/
def insertVote (db : DB) (asUser : Nat) (v : Vote) : Except String DB :=
  if !(v.voter_id == asUser) then
    Except.error "new row violates row-level security policy for table votes"
  else if db.votes.any (fun w => w.election_id == v.election_id && w.voter_id == v.voter_id) then
    Except.error "duplicate key value violates unique constraint votes_election_id_voter_id_key"
  else if db.votes.any (fun w => w.vote_receipt == v.vote_receipt) then
    Except.error "duplicate key value violates unique constraint votes_vote_receipt_key"
  else
    Except.ok { db with votes := db.votes ++ [v] }

/-- Outcome of loading the voting page (Vote.tsx loadElection).  The
redirect to sign-in when no session exists is outside the model: the
voter argument is the authenticated session user id. -/
inductive LoadOutcome where
  | unavailable
  | alreadyVoted (e : Election) (cands : List Candidate)
  | ready (e : Election) (cands : List Candidate)
  deriving DecidableEq

/-- Whether the page reached the candidate-selection (cast) step. -/
def LoadOutcome.isReady : LoadOutcome → Bool
  | LoadOutcome.ready _ _ => true
  | _ => false

/-- Vote.tsx loadElection: fetch the election by id; if it is missing or
its status is not active, show an error and leave.  Otherwise fetch the
candidates of the election, then look for an existing vote of this voter
in this election; if one exists the page shows Vote Already Cast. -/
def loadElection (db : DB) (eid voter : Nat) : LoadOutcome :=
  match (visibleElections db voter).find? (fun e => e.id == eid) with
  | none => LoadOutcome.unavailable
  | some e =>
    if e.status == Status.active then
      let cands := db.candidates.filter (fun c => c.election_id == eid)
      match (visibleVotes db voter).find? (fun v => v.election_id == eid && v.voter_id == voter) with
      | some _ => LoadOutcome.alreadyVoted e cands
      | none => LoadOutcome.ready e cands
    else LoadOutcome.unavailable

/-- Outcome of the submit handler: the datastore after the attempt,
whether the success toast (with receipt) or the error toast was shown. -/
structure CastOutcome where
  db : DB
  success : Bool
  receiptShown : Option String
  deriving DecidableEq

/-- Vote.tsx verifyAndSubmit: the simulated face verification is a fixed
delay that always succeeds; a receipt string is generated; a vote row
with face_verified set to true is inserted once.  On insert error the
message is surfaced and nothing is retried; on success the receipt is
shown.  The receipt and the fresh row id stand for the generated values. -/
def verifyAndSubmit (db : DB) (voter eid candId : Nat) (receipt : String) (fid : Nat) :
    CastOutcome :=
  let v : Vote :=
    { id := fid, election_id := eid, candidate_id := candId, voter_id := voter,
      vote_receipt := receipt, face_verified := true }
  match insertVote db voter v with
  | Except.ok db2 => { db := db2, success := true, receiptShown := some receipt }
  | Except.error _ => { db := db, success := false, receiptShown := none }

/-- Outcome of loading the voter dashboard. -/
inductive DashOutcome where
  | needFaceRegistration
  | show (elections : List Election)
  deriving DecidableEq

/-- Dashboard initDashboard: load the profile of the logged-in user; if it
is missing or face_registered is false, redirect to face registration.
Otherwise list active and ended elections, newest start_time first. -/
def initDashboard (db : DB) (voter : Nat) : DashOutcome :=
  match db.profiles.find? (fun p => p.id == voter) with
  | none => DashOutcome.needFaceRegistration
  | some p =>
    if p.face_registered then
      DashOutcome.show
        (List.insertionSort (fun a b => b.start_time ≤ a.start_time)
          (db.elections.filter
            (fun e => e.status == Status.active || e.status == Status.ended)))
    else DashOutcome.needFaceRegistration

/-- One row of the computed tally (the candidate record spread together
with its vote count and percentage). -/
structure ResultRow where
  candidate : Candidate
  votes : Nat
  percentage : Rat
  deriving DecidableEq

/-- The tally computation of the results page, from the fetched candidate
rows and vote rows: count votes per candidate id, attach percentage
count / total x 100 (0 when the total is 0), sort descending by count.
The JavaScript sort with comparator (a, b) => b.votes - a.votes is a
stable sort placing larger counts first; it is modeled by the stable
insertion sort on the relation picking the row with more votes. -/
def computeRows (cands : List Candidate) (votesData : List Vote) : List ResultRow :=
  let voteCount := votesData.length
  List.insertionSort (fun a b => b.votes ≤ a.votes)
    (cands.map (fun c =>
      { candidate := c,
        votes := votesData.countP (fun v => v.candidate_id == c.id),
        percentage :=
          if voteCount > 0 then
            ((votesData.countP (fun v => v.candidate_id == c.id) : Rat) / (voteCount : Rat)) * 100
          else 0 }))

/-- Results loadResults: fetch the election; if it is missing or its
results_published flag is false, redirect without computing anything.
Otherwise fetch the candidates of the election and the vote rows of the
election the viewer can see, and return the total together with the
computed tally rows. -/
def loadResults (db : DB) (viewer eid : Nat) : Option (Nat × List ResultRow) :=
  match (visibleElections db viewer).find? (fun e => e.id == eid) with
  | none => none
  | some e =>
    if e.results_published then
      let cands := db.candidates.filter (fun c => c.election_id == eid)
      let votesData := (visibleVotes db viewer).filter (fun v => v.election_id == eid)
      some (votesData.length, computeRows cands votesData)
    else none

/-- Admin ElectionsManagement updateElectionStatus: set the status of one
election (admin-gated in the UI and by row-level security). -/
def updateElectionStatus (db : DB) (eid : Nat) (s : Status) : DB :=
  { db with
    elections := db.elections.map (fun e => if e.id == eid then { e with status := s } else e) }

/-- Admin ElectionsManagement publishResults: set results_published of one
election to true (admin-gated in the UI and by row-level security). -/
def publishResults (db : DB) (eid : Nat) : DB :=
  { db with
    elections :=
      db.elections.map (fun e => if e.id == eid then { e with results_published := true } else e) }

/-- One state transition of the system: a cast attempt by any session
(possibly concurrent with others, possibly stale), or an admin changing
an election status or publishing results. -/
inductive Step : DB → DB → Prop where
  | cast (db : DB) (voter eid candId : Nat) (receipt : String) (fid : Nat) :
      Step db (verifyAndSubmit db voter eid candId receipt fid).db
  | setStatus (db : DB) (eid : Nat) (s : Status) :
      Step db (updateElectionStatus db eid s)
  | publish (db : DB) (eid : Nat) :
      Step db (publishResults db eid)

/-- Reachability: any finite sequence of steps. -/
inductive Reach : DB → DB → Prop where
  | refl (db : DB) : Reach db db
  | tail (db db2 db3 : DB) : Reach db db2 → Step db2 db3 → Reach db db3

/-- The votes table satisfies the unique constraint on
(election_id, voter_id): no two distinct rows agree on both. -/
def UniqueBallots (db : DB) : Prop :=
  db.votes.Pairwise (fun v w => ¬(v.election_id = w.election_id ∧ v.voter_id = w.voter_id))

instance (db : DB) : Decidable (UniqueBallots db) :=
  List.instDecidablePairwise db.votes

/-! Concrete stores used to instantiate the theorems. -/

/-- A sample active election. -/
def e1 : Election :=
  { id := 1, title := "Board Election", start_time := 0, end_time := 10,
    status := Status.active, results_published := false }

/-- The same election, ended with results published. -/
def eP : Election :=
  { e1 with status := Status.ended, results_published := true }

/-- Sample candidates of election 1. -/
def c10 : Candidate := { id := 10, election_id := 1, name := "Ada", party := "P" }

def c11 : Candidate := { id := 11, election_id := 1, name := "Ben", party := "Q" }

def c12 : Candidate := { id := 12, election_id := 1, name := "Cam", party := "R" }

/-- A vote row of election 1 for one candidate by one voter. -/
def mkVote (cid voter : Nat) (r : String) : Vote :=
  { id := voter, election_id := 1, candidate_id := cid, voter_id := voter,
    vote_receipt := r, face_verified := true }

/-- Store with one active election, one candidate, no votes, and a voter
(id 5) whose face_registered flag is false. -/
def dbActive : DB :=
  { elections := [e1], candidates := [c10], votes := [],
    profiles := [{ id := 5, face_registered := false }], user_roles := [] }

/-- The store after voter 5 casts a first vote in dbActive. -/
def dbAfterFirst : DB :=
  (verifyAndSubmit dbActive 5 1 10 "VR-1" 100).db

/-- dbActive after an admin pauses election 1. -/
def dbPaused : DB :=
  updateElectionStatus dbActive 1 Status.paused

/-- Published election with three candidates and ten votes split 5 / 3 / 2,
viewed by admin 99. -/
def dbSplit : DB :=
  { elections := [eP], candidates := [c10, c11, c12],
    votes := [mkVote 10 101 "a", mkVote 10 102 "b", mkVote 10 103 "c", mkVote 10 104 "d",
              mkVote 10 105 "e", mkVote 11 106 "f", mkVote 11 107 "g", mkVote 11 108 "h",
              mkVote 12 109 "i", mkVote 12 110 "j"],
    profiles := [], user_roles := [{ user_id := 99, role := Role.admin }] }

/-- Ended election with its results not published. -/
def dbUnpub : DB :=
  { elections := [{ eP with results_published := false }], candidates := [c10],
    votes := [], profiles := [], user_roles := [] }

/-- Published election with two candidates and no votes at all. -/
def dbNoVotes : DB :=
  { elections := [eP], candidates := [c10, c11], votes := [],
    profiles := [], user_roles := [] }

/-- Published election whose single vote row references candidate id 99,
which is not a candidate of the election; viewed by admin 42. -/
def dbMismatch : DB :=
  { elections := [eP], candidates := [c10], votes := [mkVote 99 5 "r"],
    profiles := [], user_roles := [{ user_id := 42, role := Role.admin }] }

/-- Published election with a single vote cast by voter 5; voters 5 and 6
are both non-admins. -/
def dbOwn : DB :=
  { elections := [eP], candidates := [c10], votes := [mkVote 10 5 "R1"],
    profiles := [], user_roles := [] }

end BioPoll

namespace BioPoll

/-! ### Helper lemmas -/

/-- If the votes list satisfies the pairwise uniqueness of
(election_id, voter_id) and a predicate pins both fields down, then at
most one row satisfies the predicate. -/
theorem countP_le_one_of_pairwise {l : List Vote} {p : Vote → Bool}
    (hp : l.Pairwise (fun v w => ¬(v.election_id = w.election_id ∧ v.voter_id = w.voter_id)))
    (hag : ∀ v w, p v = true → p w = true →
      v.election_id = w.election_id ∧ v.voter_id = w.voter_id) :
    l.countP p ≤ 1 := by
  induction l with
  | nil => simp
  | cons v l ih =>
    rcases List.pairwise_cons.mp hp with ⟨hv, hl⟩
    by_cases hpv : p v = true
    · have hzero : l.countP p = 0 := by
        refine List.countP_eq_zero.mpr ?_
        intro w hw hpw
        exact hv w hw (hag v w hpv hpw)
      simp [List.countP_cons, hpv, hzero]
    · simp only [List.countP_cons, hpv, if_false]
      simpa using ih hl

/-- Every step either leaves the votes table unchanged or appends exactly
one new row, which has face_verified = true and does not collide with any
existing row on (election_id, voter_id). -/
theorem step_votes {db db' : DB} (h : Step db db') :
    db'.votes = db.votes ∨
      ∃ v : Vote, db'.votes = db.votes ++ [v] ∧ v.face_verified = true ∧
        ∀ w ∈ db.votes, ¬(w.election_id = v.election_id ∧ w.voter_id = v.voter_id) := by
  cases h with
  | cast voter eid candId receipt fid =>
    simp only [verifyAndSubmit]
    rcases hins : insertVote db voter
        { id := fid, election_id := eid, candidate_id := candId, voter_id := voter,
          vote_receipt := receipt, face_verified := true } with m | db2
    · exact Or.inl rfl
    · right
      unfold insertVote at hins
      split_ifs at hins with hrls hdup hrec
      cases hins
      refine ⟨_, rfl, rfl, ?_⟩
      simp only [Bool.not_eq_true, List.any_eq_false, Bool.and_eq_true, beq_iff_eq,
        not_and] at hdup
      intro w hw hcontra
      exact hdup w hw hcontra.1 hcontra.2
  | setStatus eid s =>
    exact Or.inl rfl
  | publish eid =>
    exact Or.inl rfl

/-- Uniqueness of (election_id, voter_id) is preserved by every reachable
sequence of steps. -/
theorem reach_unique {db db' : DB} (h : Reach db db') (hu : UniqueBallots db) :
    UniqueBallots db' := by
  induction h with
  | refl => exact hu
  | tail db2 db3 h12 hstep ih =>
    rcases step_votes hstep with heq | ⟨v, heq, _, hnew⟩
    · unfold UniqueBallots
      rw [heq]
      exact ih
    · unfold UniqueBallots
      rw [heq, List.pairwise_append]
      refine ⟨ih, by simp, ?_⟩
      intro a ha b hb
      simp only [List.mem_singleton] at hb
      subst hb
      exact hnew a ha

/-- An admin viewer sees every vote row. -/
theorem visibleVotes_admin {db : DB} {viewer : Nat}
    (h : has_role db viewer Role.admin = true) :
    visibleVotes db viewer = db.votes := by
  refine List.filter_eq_self.mpr ?_
  intro v _
  simp [voteVisible, h]

/-- An admin viewer sees every election row. -/
theorem visibleElections_admin {db : DB} {viewer : Nat}
    (h : has_role db viewer Role.admin = true) :
    visibleElections db viewer = db.elections := by
  refine List.filter_eq_self.mpr ?_
  intro e _
  simp [electionVisible, h]

end BioPoll

namespace BioPoll

/-- Claim C1: for every election E and voter V, at most one ballot
record with election reference E and voter reference V exists, no matter
how many cast attempts are made (including concurrent ones): every
reachable store keeps the (election, voter) count at or below one,
because the uniqueness constraint fails any second insert; and the
client-side check never offers the cast step when a ballot of this voter
for this election already exists. -/
theorem C1_at_most_one_ballot_per_voter :
    (∀ db db' : DB, Reach db db' → UniqueBallots db → ∀ eid voter : Nat,
      db'.votes.countP (fun v => v.election_id == eid && v.voter_id == voter) ≤ 1) ∧
    (∀ (db : DB) (eid voter : Nat),
      db.votes.any (fun v => v.election_id == eid && v.voter_id == voter) = true →
      LoadOutcome.isReady (loadElection db eid voter) = false) := by
  constructor
  · intro db db' hreach hu eid voter
    refine countP_le_one_of_pairwise (reach_unique hreach hu) ?_
    intro v w hv hw
    simp only [Bool.and_eq_true, beq_iff_eq] at hv hw
    exact ⟨hv.1.trans hw.1.symm, hv.2.trans hw.2.symm⟩
  · intro db eid voter h
    rcases List.any_eq_true.mp h with ⟨v, hv, hpv⟩
    unfold loadElection
    cases hfind : (visibleElections db voter).find? (fun e => e.id == eid) with
    | none => rfl
    | some e =>
      simp only
      split
      · have hmem : v ∈ visibleVotes db voter := by
          refine List.mem_filter.mpr ⟨hv, ?_⟩
          simp only [Bool.and_eq_true, beq_iff_eq] at hpv
          simp [voteVisible, hpv.2]
        cases hfind2 : (visibleVotes db voter).find?
            (fun w => w.election_id == eid && w.voter_id == voter) with
        | none => exact absurd (List.find?_eq_none.mp hfind2 v hmem) (by simp [hpv])
        | some w => rfl
      · rfl

/-- Witness for C1: a concrete trace of two cast attempts by voter 5 in
election 1, starting from a store with no votes. -/
theorem C1_witness :
    UniqueBallots dbActive ∧
    (verifyAndSubmit dbAfterFirst 5 1 10 "VR-2" 101).db.votes.countP
      (fun v => v.election_id == 1 && v.voter_id == 5) ≤ 1 ∧
    dbAfterFirst.votes.any (fun v => v.election_id == 1 && v.voter_id == 5) = true ∧
    LoadOutcome.isReady (loadElection dbAfterFirst 1 5) = false := by
  refine ⟨by decide, ?_, by decide, ?_⟩
  · exact C1_at_most_one_ballot_per_voter.1 dbActive _
      (Reach.tail _ _ _
        (Reach.tail _ _ _ (Reach.refl dbActive) (Step.cast dbActive 5 1 10 "VR-1" 100))
        (Step.cast dbAfterFirst 5 1 10 "VR-2" 101))
      (by decide) 1 5
  · exact C1_at_most_one_ballot_per_voter.2 dbAfterFirst 1 5 (by decide)

/-- Counterexample to claim C2 as stated: the status check happens only
when the voting page is loaded.  After an admin pauses election 1, the
submit handler still succeeds and inserts a ballot for the paused
election: the rejection does not hold at the moment of the insert. -/
theorem C2_counterexample :
    (findElection dbPaused 1).map Election.status = some Status.paused ∧
    (verifyAndSubmit dbPaused 5 1 10 "VR-1" 100).success = true ∧
    (verifyAndSubmit dbPaused 5 1 10 "VR-1" 100).db.votes.countP
      (fun v => v.election_id == 1) = 1 := by
  decide

/-- Claim C2 amended: casting against a non-active election is rejected
at page-load time — loadElection refuses (and never inserts) whenever no
election with the requested id has status active; the insert itself
performs no status check, so the rejection is not re-established at
submit time. -/
theorem C2_amended_load_rejects_inactive :
    ∀ (db : DB) (eid voter : Nat),
      (∀ e ∈ db.elections, e.id = eid → e.status ≠ Status.active) →
      loadElection db eid voter = LoadOutcome.unavailable := by
  intro db eid voter h
  unfold loadElection
  cases hfind : (visibleElections db voter).find? (fun e => e.id == eid) with
  | none => rfl
  | some e =>
    have hmem : e ∈ db.elections := (List.mem_filter.mp (List.mem_of_find?_eq_some hfind)).1
    have hid : e.id = eid := by simpa using List.find?_some hfind
    have hst := h e hmem hid
    simp [hst]

/-- Witness for the amended C2 at the concrete paused store. -/
theorem C2_witness :
    (∀ e ∈ dbPaused.elections, e.id = 1 → e.status ≠ Status.active) ∧
    loadElection dbPaused 1 5 = LoadOutcome.unavailable :=
  ⟨by decide, C2_amended_load_rejects_inactive dbPaused 1 5 (by decide)⟩

/-- Claim C3: when the voter already has a ballot in the election, a
second cast attempt fails: the error is surfaced (no success toast, no
receipt shown, hence not silently retried) and the ballot store is
exactly what it was before the attempt, so the first ballot is unchanged
and no second ballot exists. -/
theorem C3_second_cast_fails :
    ∀ (db : DB) (voter eid candId : Nat) (receipt : String) (fid : Nat),
      db.votes.any (fun w => w.election_id == eid && w.voter_id == voter) = true →
      (verifyAndSubmit db voter eid candId receipt fid).success = false ∧
      (verifyAndSubmit db voter eid candId receipt fid).receiptShown = none ∧
      (verifyAndSubmit db voter eid candId receipt fid).db = db := by
  intro db voter eid candId receipt fid h
  simp only [verifyAndSubmit]
  rcases hins : insertVote db voter
      { id := fid, election_id := eid, candidate_id := candId, voter_id := voter,
        vote_receipt := receipt, face_verified := true } with m | db2
  · exact ⟨rfl, rfl, rfl⟩
  · exfalso
    unfold insertVote at hins
    split_ifs at hins

/-- Witness for C3: the second attempt of the trace of C1 fails and
leaves the store untouched. -/
theorem C3_witness :
    dbAfterFirst.votes.any (fun w => w.election_id == 1 && w.voter_id == 5) = true ∧
    (verifyAndSubmit dbAfterFirst 5 1 10 "VR-2" 101).success = false ∧
    (verifyAndSubmit dbAfterFirst 5 1 10 "VR-2" 101).receiptShown = none ∧
    (verifyAndSubmit dbAfterFirst 5 1 10 "VR-2" 101).db = dbAfterFirst := by
  have h3 := C3_second_cast_fails dbAfterFirst 5 1 10 "VR-2" 101 (by decide)
  exact ⟨by decide, h3.1, h3.2.1, h3.2.2⟩

/-- Claim C4: while results_published is false the results operation
returns nothing at all — no total, no per-candidate rows — whatever the
election status is. -/
theorem C4_results_withheld_when_unpublished :
    ∀ (db : DB) (viewer eid : Nat),
      (∀ e ∈ db.elections, e.id = eid → e.results_published = false) →
      loadResults db viewer eid = none := by
  intro db viewer eid h
  unfold loadResults
  cases hfind : (visibleElections db viewer).find? (fun e => e.id == eid) with
  | none => rfl
  | some e =>
    have hmem : e ∈ db.elections := (List.mem_filter.mp (List.mem_of_find?_eq_some hfind)).1
    have hid : e.id = eid := by simpa using List.find?_some hfind
    have hpub := h e hmem hid
    simp [hpub]

/-- Witness for C4: an ended (hence viewable) election with the flag off
yields no tally. -/
theorem C4_witness :
    (∀ e ∈ dbUnpub.elections, e.id = 1 → e.results_published = false) ∧
    loadResults dbUnpub 7 1 = none :=
  ⟨by decide, C4_results_withheld_when_unpublished dbUnpub 7 1 (by decide)⟩

end BioPoll

namespace BioPoll

/-- An insert whose row belongs to the inserting user and violates
neither unique constraint succeeds and appends the row. -/
theorem insertVote_ok (db : DB) (voter : Nat) (v : Vote)
    (h0 : v.voter_id = voter)
    (hdup : db.votes.any
      (fun w => w.election_id == v.election_id && w.voter_id == v.voter_id) = false)
    (hrec : db.votes.any (fun w => w.vote_receipt == v.vote_receipt) = false) :
    insertVote db voter v = Except.ok { db with votes := db.votes ++ [v] } := by
  unfold insertVote
  split_ifs with h1 h2 h3
  · rw [h0] at h1
    simp at h1
  · rw [hdup] at h2
    cases h2
  · rw [hrec] at h3
    cases h3
  · rfl

/-- Counterexample to claim C8 as stated: in a store whose only voter has
face_registered = false, that voter still reaches the cast step of the
voting page (loadElection is ready) and inserts a ballot — the voting
flow itself never consults the flag. -/
theorem C8_counterexample :
    (dbActive.profiles.find? (fun p => p.id == 5)).map Profile.face_registered = some false ∧
    LoadOutcome.isReady (loadElection dbActive 1 5) = true ∧
    (verifyAndSubmit dbActive 5 1 10 "VR-1" 100).success = true ∧
    (verifyAndSubmit dbActive 5 1 10 "VR-1" 100).db.votes.countP
      (fun v => v.voter_id == 5) = 1 := by
  decide

/-- Claim C8 amended: the face_registered gate exists only on the
dashboard, which redirects an unregistered voter to face registration and
shows no elections; the voting page performs no face_registered check, so
any cast attempt whose insert violates no constraint succeeds regardless
of the flag. -/
theorem C8_amended_dashboard_only :
    (∀ (db : DB) (voter : Nat) (p : Profile),
      db.profiles.find? (fun q => q.id == voter) = some p →
      p.face_registered = false →
      initDashboard db voter = DashOutcome.needFaceRegistration) ∧
    (∀ (db : DB) (voter eid candId : Nat) (receipt : String) (fid : Nat),
      db.votes.any (fun w => w.election_id == eid && w.voter_id == voter) = false →
      db.votes.any (fun w => w.vote_receipt == receipt) = false →
      (verifyAndSubmit db voter eid candId receipt fid).success = true) := by
  constructor
  · intro db voter p hfind hflag
    unfold initDashboard
    rw [hfind]
    simp [hflag]
  · intro db voter eid candId receipt fid hdup hrec
    simp only [verifyAndSubmit]
    rw [insertVote_ok db voter
      { id := fid, election_id := eid, candidate_id := candId, voter_id := voter,
        vote_receipt := receipt, face_verified := true } rfl hdup hrec]

/-- Witness for the amended C8 at the concrete store: the dashboard
redirects voter 5, while a direct cast by the same unregistered voter
succeeds. -/
theorem C8_witness :
    dbActive.profiles.find? (fun q => q.id == 5)
      = some { id := 5, face_registered := false } ∧
    initDashboard dbActive 5 = DashOutcome.needFaceRegistration ∧
    dbActive.votes.any (fun w => w.election_id == 1 && w.voter_id == 5) = false ∧
    (verifyAndSubmit dbActive 5 1 10 "VR-1" 100).success = true := by
  refine ⟨by decide, ?_, by decide, ?_⟩
  · exact C8_amended_dashboard_only.1 dbActive 5
      { id := 5, face_registered := false } (by decide) (by decide)
  · exact C8_amended_dashboard_only.2 dbActive 5 1 10 "VR-1" 100 (by decide) (by decide)

/-- Claim C9: the votes read policy restricts a non-admin viewer to rows
whose voter_id is their own, so the results total a non-admin computes is
at most 1 (their own possible ballot, given the unique constraint);
admins see every vote row; and two non-admin voters viewing the same
published election can see different totals (here 1 versus 0). -/
theorem C9_non_admin_sees_only_own_ballot :
    (∀ (db : DB) (viewer eid total : Nat) (rows : List ResultRow),
      has_role db viewer Role.admin = false →
      UniqueBallots db →
      loadResults db viewer eid = some (total, rows) →
      total ≤ 1) ∧
    (∀ (db : DB) (viewer : Nat), has_role db viewer Role.admin = true →
      visibleVotes db viewer = db.votes) ∧
    (loadResults dbOwn 5 1).map Prod.fst = some 1 ∧
    (loadResults dbOwn 6 1).map Prod.fst = some 0 := by
  refine ⟨?_, fun db viewer h => visibleVotes_admin h, by decide, by decide⟩
  intro db viewer eid total rows hadm hu hres
  unfold loadResults at hres
  cases hfind : (visibleElections db viewer).find? (fun e => e.id == eid) with
  | none =>
    rw [hfind] at hres
    cases hres
  | some e =>
    rw [hfind] at hres
    by_cases hpub : e.results_published = true
    · simp only [hpub, if_true, Option.some.injEq, Prod.mk.injEq] at hres
      rcases hres with ⟨htot, _⟩
      rw [← htot]
      rw [visibleVotes, List.filter_filter, ← List.countP_eq_length_filter]
      refine countP_le_one_of_pairwise hu ?_
      intro v w hv hw
      simp only [Bool.and_eq_true, beq_iff_eq, voteVisible, Bool.or_eq_true, hadm,
        Bool.or_false] at hv hw
      exact ⟨hv.1.trans hw.1.symm, hv.2.trans hw.2.symm⟩
    · simp [hpub] at hres

/-- Witness for C9: the non-admin voter 5 views the published election of
dbOwn and the computed total is 1. -/
theorem C9_witness :
    has_role dbOwn 5 Role.admin = false ∧
    UniqueBallots dbOwn ∧
    loadResults dbOwn 5 1 = some (1,
      computeRows (dbOwn.candidates.filter (fun c => c.election_id == 1))
        ((visibleVotes dbOwn 5).filter (fun v => v.election_id == 1))) ∧
    (1 : Nat) ≤ 1 := by
  refine ⟨by decide, by decide, by rfl, ?_⟩
  exact C9_non_admin_sees_only_own_ballot.1 dbOwn 5 1 1
    (computeRows (dbOwn.candidates.filter (fun c => c.election_id == 1))
      ((visibleVotes dbOwn 5).filter (fun v => v.election_id == 1)))
    (by decide) (by decide) (by rfl)

/-- Claim C10: the simulated identity check never fails and the flow
inserts with face_verified set to true unconditionally, so starting from
any store whose ballots are all verified, every reachable store still
contains only ballots with face_verified = true. -/
theorem C10_all_flow_ballots_face_verified :
    ∀ db db' : DB, Reach db db' → (∀ v ∈ db.votes, v.face_verified = true) →
      ∀ v ∈ db'.votes, v.face_verified = true := by
  intro db db' h hall
  induction h with
  | refl => exact hall
  | tail db2 db3 h12 hstep ih =>
    rcases step_votes hstep with heq | ⟨w, heq, hw, _⟩
    · rw [heq]
      exact ih
    · rw [heq]
      intro v hv
      rcases List.mem_append.mp hv with hv | hv
      · exact ih v hv
      · simp only [List.mem_singleton] at hv
        rw [hv]
        exact hw

/-- Witness for C10: the store after a first cast contains only verified
ballots. -/
theorem C10_witness :
    (∀ v ∈ dbActive.votes, v.face_verified = true) ∧
    (∀ v ∈ dbAfterFirst.votes, v.face_verified = true) :=
  ⟨by decide, C10_all_flow_ballots_face_verified dbActive dbAfterFirst
    (Reach.tail _ _ _ (Reach.refl dbActive) (Step.cast dbActive 5 1 10 "VR-1" 100))
    (by decide)⟩

end BioPoll

namespace BioPoll

/-- The results page of an admin viewer, for a published election found
by id, returns the total over all ballots of the election and the rows
computed from all of them. -/
theorem loadResults_admin_eq {db : DB} {viewer eid : Nat} {e : Election}
    (hadm : has_role db viewer Role.admin = true)
    (hfind : db.elections.find? (fun x => x.id == eid) = some e)
    (hpub : e.results_published = true) :
    loadResults db viewer eid
      = some ((votesFor db eid).length, computeRows (candsFor db eid) (votesFor db eid)) := by
  unfold loadResults
  rw [visibleElections_admin hadm, hfind]
  simp only [hpub, if_true]
  rw [visibleVotes_admin hadm]
  rfl

/-- The computed rows are one per candidate: projecting the candidate out
of the rows gives a permutation of the candidate list. -/
theorem computeRows_perm_cands (cands : List Candidate) (votesData : List Vote) :
    ((computeRows cands votesData).map ResultRow.candidate).Perm cands := by
  have h := (List.perm_insertionSort (fun a b : ResultRow => b.votes ≤ a.votes)
    (cands.map (fun c =>
      ({ candidate := c,
         votes := votesData.countP (fun v => v.candidate_id == c.id),
         percentage :=
           if votesData.length > 0 then
             ((votesData.countP (fun v => v.candidate_id == c.id) : Rat)
               / (votesData.length : Rat)) * 100
           else 0 } : ResultRow)))).map ResultRow.candidate
  simpa [computeRows, List.map_map, Function.comp_def] using h

/-- The computed rows are sorted by descending vote count. -/
theorem computeRows_sorted (cands : List Candidate) (votesData : List Vote) :
    (computeRows cands votesData).Pairwise (fun a b => b.votes ≤ a.votes) := by
  haveI : IsTotal ResultRow (fun a b => b.votes ≤ a.votes) :=
    ⟨fun a b => Nat.le_total b.votes a.votes⟩
  haveI : IsTrans ResultRow (fun a b => b.votes ≤ a.votes) :=
    ⟨fun a b c hab hbc => le_trans hbc hab⟩
  exact List.sorted_insertionSort _ _

/-- Every computed row is the row of one of the candidates. -/
theorem computeRows_mem {cands : List Candidate} {votesData : List Vote} {r : ResultRow}
    (hr : r ∈ computeRows cands votesData) :
    ∃ c ∈ cands,
      r = { candidate := c,
            votes := votesData.countP (fun v => v.candidate_id == c.id),
            percentage :=
              if votesData.length > 0 then
                ((votesData.countP (fun v => v.candidate_id == c.id) : Rat)
                  / (votesData.length : Rat)) * 100
              else 0 } := by
  have hr2 : r ∈ cands.map (fun c =>
      ({ candidate := c,
         votes := votesData.countP (fun v => v.candidate_id == c.id),
         percentage :=
           if votesData.length > 0 then
             ((votesData.countP (fun v => v.candidate_id == c.id) : Rat)
               / (votesData.length : Rat)) * 100
           else 0 } : ResultRow)) := (List.mem_insertionSort _).mp hr
  rcases List.mem_map.mp hr2 with ⟨c, hc, hcr⟩
  exact ⟨c, hc, hcr.symm⟩

/-- There are as many computed rows as candidates. -/
theorem computeRows_length (cands : List Candidate) (votesData : List Vote) :
    (computeRows cands votesData).length = cands.length := by
  simp [computeRows, List.length_insertionSort]

/-- Claim C5: for a published election viewed with full (admin)
visibility, the results computation yields exactly one row per candidate,
each carrying the ballot count of that candidate among the ballots of the
election and the percentage count / total x 100, sorted in descending
order of count; in particular, with 3 candidates and 10 ballots split
5 / 3 / 2 the tally reads 50, 30, 20 in that order and the winner row is
the candidate with 5 votes. -/
theorem C5_tally_counts_percentages_sorted :
    (∀ (db : DB) (viewer eid : Nat) (e : Election),
      has_role db viewer Role.admin = true →
      db.elections.find? (fun x => x.id == eid) = some e →
      e.results_published = true →
      ∃ rows : List ResultRow,
        loadResults db viewer eid = some ((votesFor db eid).length, rows) ∧
        (rows.map ResultRow.candidate).Perm (candsFor db eid) ∧
        rows.Pairwise (fun a b => b.votes ≤ a.votes) ∧
        ∀ r ∈ rows,
          r.votes = (votesFor db eid).countP (fun v => v.candidate_id == r.candidate.id) ∧
          r.percentage = (if (votesFor db eid).length > 0 then
            ((r.votes : Rat) / ((votesFor db eid).length : Rat)) * 100 else 0)) ∧
    loadResults dbSplit 99 1 = some (10,
      [{ candidate := c10, votes := 5, percentage := 50 },
       { candidate := c11, votes := 3, percentage := 30 },
       { candidate := c12, votes := 2, percentage := 20 }]) := by
  constructor
  · intro db viewer eid e hadm hfind hpub
    refine ⟨computeRows (candsFor db eid) (votesFor db eid),
      loadResults_admin_eq hadm hfind hpub,
      computeRows_perm_cands _ _, computeRows_sorted _ _, ?_⟩
    intro r hr
    rcases computeRows_mem hr with ⟨c, _, hcr⟩
    subst hcr
    exact ⟨rfl, rfl⟩
  · norm_num [loadResults, visibleElections, visibleVotes, electionVisible, voteVisible,
      has_role, computeRows, dbSplit, eP, e1, c10, c11, c12, mkVote]

/-- Witness for C5: the general contract applied to the 5 / 3 / 2
store viewed by admin 99. -/
theorem C5_witness :
    has_role dbSplit 99 Role.admin = true ∧
    dbSplit.elections.find? (fun x => x.id == 1) = some eP ∧
    eP.results_published = true ∧
    (∃ rows : List ResultRow,
      loadResults dbSplit 99 1 = some ((votesFor dbSplit 1).length, rows) ∧
      (rows.map ResultRow.candidate).Perm (candsFor dbSplit 1) ∧
      rows.Pairwise (fun a b => b.votes ≤ a.votes) ∧
      ∀ r ∈ rows,
        r.votes = (votesFor dbSplit 1).countP (fun v => v.candidate_id == r.candidate.id) ∧
        r.percentage = (if (votesFor dbSplit 1).length > 0 then
          ((r.votes : Rat) / ((votesFor dbSplit 1).length : Rat)) * 100 else 0)) :=
  ⟨by decide, by decide, by decide,
    C5_tally_counts_percentages_sorted.1 dbSplit 99 1 eP (by decide) (by decide) (by decide)⟩

/-- Claim C6: a published election with no ballots at all yields a tally
without any division error, with one row per candidate and percentage 0
everywhere. -/
theorem C6_zero_ballots_zero_percent :
    ∀ (db : DB) (viewer eid : Nat) (e : Election),
      (visibleElections db viewer).find? (fun x => x.id == eid) = some e →
      e.results_published = true →
      db.votes.filter (fun v => v.election_id == eid) = [] →
      ∃ rows : List ResultRow,
        loadResults db viewer eid = some (0, rows) ∧
        rows.length = (candsFor db eid).length ∧
        ∀ r ∈ rows, r.percentage = 0 := by
  intro db viewer eid e hfind hpub hnov
  have hvis : (visibleVotes db viewer).filter (fun v => v.election_id == eid) = [] := by
    rw [visibleVotes, List.filter_filter]
    refine List.filter_eq_nil_iff.mpr ?_
    intro v hv hcond
    rcases Bool.and_eq_true_iff.mp hcond with ⟨h1, _⟩
    exact List.filter_eq_nil_iff.mp hnov v hv h1
  unfold loadResults
  rw [hfind]
  simp only [hpub, if_true]
  rw [hvis]
  refine ⟨computeRows (candsFor db eid) [], rfl, computeRows_length _ _, ?_⟩
  intro r hr
  rcases computeRows_mem hr with ⟨c, _, hcr⟩
  subst hcr
  simp

/-- Witness for C6 at the concrete published election with two
candidates and no ballots, viewed by a non-admin. -/
theorem C6_witness :
    (visibleElections dbNoVotes 7).find? (fun x => x.id == 1) = some eP ∧
    eP.results_published = true ∧
    dbNoVotes.votes.filter (fun v => v.election_id == 1) = [] ∧
    (∃ rows : List ResultRow,
      loadResults dbNoVotes 7 1 = some (0, rows) ∧
      rows.length = (candsFor dbNoVotes 1).length ∧
      ∀ r ∈ rows, r.percentage = 0) :=
  ⟨by decide, by decide, by decide,
    C6_zero_ballots_zero_percent dbNoVotes 7 1 eP (by decide) (by decide) (by decide)⟩

end BioPoll

namespace BioPoll

/-- Sum of a pointwise sum of two Nat-valued maps splits. -/
theorem sum_map_add {α : Type} (l : List α) (f g : α → Nat) :
    (l.map (fun a => f a + g a)).sum = (l.map f).sum + (l.map g).sum := by
  induction l with
  | nil => simp
  | cons a l ih =>
    simp only [List.map_cons, List.sum_cons, ih]
    omega

/-- The indicator of a value sums to 0 over a list not containing it. -/
theorem sum_map_indicator_zero (x : Nat) (ids : List Nat) (h : x ∉ ids) :
    (ids.map (fun i => if x = i then (1 : Nat) else 0)).sum = 0 := by
  induction ids with
  | nil => simp
  | cons i ids ih =>
    simp only [List.map_cons, List.sum_cons]
    rw [if_neg (fun he => h (by rw [he]; exact List.mem_cons_self i ids)),
      ih (fun hm => h (List.mem_cons_of_mem i hm))]

/-- The indicator of a value sums to 1 over a duplicate-free list
containing it. -/
theorem sum_map_indicator_one (x : Nat) (ids : List Nat) (hnd : ids.Nodup) (hm : x ∈ ids) :
    (ids.map (fun i => if x = i then (1 : Nat) else 0)).sum = 1 := by
  induction ids with
  | nil => cases hm
  | cons i ids ih =>
    rcases List.nodup_cons.mp hnd with ⟨hni, hnd2⟩
    simp only [List.map_cons, List.sum_cons]
    by_cases hx : x = i
    · rw [if_pos hx, sum_map_indicator_zero x ids (by rw [hx]; exact hni)]
    · rcases List.mem_cons.mp hm with h | h
      · exact absurd h hx
      · rw [if_neg hx, ih hnd2 h]

/-- When candidate ids are unique and every vote references one of the
candidates, the per-candidate counts add up to the number of votes. -/
theorem sum_countP_eq_length (cands : List Candidate) (votes : List Vote)
    (hnd : (cands.map Candidate.id).Nodup)
    (hmem : ∀ v ∈ votes, v.candidate_id ∈ cands.map Candidate.id) :
    (cands.map (fun c => votes.countP (fun v => v.candidate_id == c.id))).sum
      = votes.length := by
  induction votes with
  | nil => simp
  | cons v vs ih =>
    have hv := hmem v (List.mem_cons_self v vs)
    have ih2 := ih (fun w hw => hmem w (List.mem_cons_of_mem v hw))
    simp only [List.countP_cons, beq_iff_eq]
    rw [sum_map_add cands (fun c => vs.countP (fun w => w.candidate_id == c.id))
      (fun c => if v.candidate_id = c.id then (1 : Nat) else 0)]
    rw [ih2]
    have hconv : (cands.map (fun c => if v.candidate_id = c.id then (1 : Nat) else 0)).sum
        = ((cands.map Candidate.id).map
            (fun i => if v.candidate_id = i then (1 : Nat) else 0)).sum := by
      rw [List.map_map]
      rfl
    rw [hconv, sum_map_indicator_one v.candidate_id (cands.map Candidate.id) hnd hv]
    rfl

/-- Sum of a map scaled on the right by a constant rational. -/
theorem sum_map_mul_right {α : Type} (l : List α) (f : α → Rat) (k : Rat) :
    (l.map (fun a => f a * k)).sum = (l.map f).sum * k := by
  induction l with
  | nil => simp
  | cons a l ih => simp [ih, add_mul]

/-- Casting a Nat-valued sum to Rat commutes with the map. -/
theorem sum_map_cast {α : Type} (l : List α) (f : α → Nat) :
    (l.map (fun a => ((f a : Nat) : Rat))).sum = (((l.map f).sum : Nat) : Rat) := by
  induction l with
  | nil => simp
  | cons a l ih => simp [ih]

/-- If the Nat-valued weights of a list sum to a positive total T, the
rational values weight / T x 100 sum to 100. -/
theorem sum_map_div_mul_eq_100 (cands : List Candidate) (f : Candidate → Nat) (T : Nat)
    (hT : 0 < T) (htot : (cands.map f).sum = T) :
    (cands.map (fun c => ((f c : Rat) / (T : Rat)) * 100)).sum = 100 := by
  have hTne : ((T : Nat) : Rat) ≠ 0 := Nat.cast_ne_zero.mpr (Nat.pos_iff_ne_zero.mp hT)
  have hfun : (fun c => ((f c : Rat) / (T : Rat)) * 100)
      = fun c => ((f c : Rat)) * (100 / (T : Rat)) := by
    funext c
    ring
  rw [hfun, sum_map_mul_right, sum_map_cast, htot]
  field_simp

/-- Counterexample to claim C7 as stated: a published election whose only
ballot references a candidate id (99) that is not among the candidates of
the election.  The total is 1 > 0 yet the percentages of all candidate
rows sum to 0, not 100. -/
theorem C7_counterexample :
    has_role dbMismatch 42 Role.admin = true ∧
    loadResults dbMismatch 42 1
      = some (1, [{ candidate := c10, votes := 0, percentage := 0 }]) ∧
    (([{ candidate := c10, votes := 0, percentage := 0 }] : List ResultRow).map
        ResultRow.percentage).sum = 0 ∧
    (0 : Rat) ≠ 100 := by
  refine ⟨by decide, ?_, by simp, by norm_num⟩
  norm_num [loadResults, visibleElections, visibleVotes, electionVisible, voteVisible,
    has_role, computeRows, dbMismatch, eP, e1, c10, mkVote]

/-- Claim C7 amended: for a published election with N > 0 ballots viewed
with full (admin) visibility, the candidate percentages sum to exactly
100 provided every ballot of the election references one of the election
candidates (candidate ids being unique, as the primary key guarantees). -/
theorem C7_percentages_sum_to_100 :
    ∀ (db : DB) (viewer eid : Nat) (e : Election),
      has_role db viewer Role.admin = true →
      db.elections.find? (fun x => x.id == eid) = some e →
      e.results_published = true →
      0 < (votesFor db eid).length →
      ((candsFor db eid).map Candidate.id).Nodup →
      (∀ v ∈ votesFor db eid, v.candidate_id ∈ (candsFor db eid).map Candidate.id) →
      ∃ (total : Nat) (rows : List ResultRow),
        loadResults db viewer eid = some (total, rows) ∧
        (rows.map ResultRow.percentage).sum = 100 := by
  intro db viewer eid e hadm hfind hpub hT hnd hmem
  refine ⟨_, _, loadResults_admin_eq hadm hfind hpub, ?_⟩
  have hperm2 : (computeRows (candsFor db eid) (votesFor db eid)).Perm
      ((candsFor db eid).map (fun c =>
        ({ candidate := c,
           votes := (votesFor db eid).countP (fun v => v.candidate_id == c.id),
           percentage :=
             if (votesFor db eid).length > 0 then
               (((votesFor db eid).countP (fun v => v.candidate_id == c.id) : Rat)
                 / ((votesFor db eid).length : Rat)) * 100
             else 0 } : ResultRow))) := List.perm_insertionSort _ _
  rw [List.Perm.sum_eq (hperm2.map ResultRow.percentage)]
  rw [List.map_map]
  simp only [Function.comp_def, gt_iff_lt, hT, if_true]
  exact sum_map_div_mul_eq_100 (candsFor db eid)
    (fun c => (votesFor db eid).countP (fun v => v.candidate_id == c.id))
    ((votesFor db eid).length) hT (sum_countP_eq_length _ _ hnd hmem)

/-- Witness for the amended C7: the 5 / 3 / 2 store, whose ballots all
reference candidates of the election, sums to 100. -/
theorem C7_witness :
    has_role dbSplit 99 Role.admin = true ∧
    dbSplit.elections.find? (fun x => x.id == 1) = some eP ∧
    eP.results_published = true ∧
    0 < (votesFor dbSplit 1).length ∧
    ((candsFor dbSplit 1).map Candidate.id).Nodup ∧
    (∀ v ∈ votesFor dbSplit 1, v.candidate_id ∈ (candsFor dbSplit 1).map Candidate.id) ∧
    (∃ (total : Nat) (rows : List ResultRow),
      loadResults dbSplit 99 1 = some (total, rows) ∧
      (rows.map ResultRow.percentage).sum = 100) :=
  ⟨by decide, by decide, by decide, by decide, by decide, by decide,
    C7_percentages_sum_to_100 dbSplit 99 1 eP (by decide) (by decide) (by decide)
      (by decide) (by decide) (by decide)⟩

end BioPoll
